import Mathlib

/-!
# Verification of the sqlmq queue engine (std_table.go and the consume file)

Shallow embedding of the lovego/sqlmq queue engine.  Timestamps and
durations are modelled as integers (seconds); Go's zero `time.Time` is the
integer `0`.  Database statements are modelled by their semantics on an
in-memory table (a list of rows) or by the literal statement string;
outcomes of database calls (mark/commit errors) are passed in as explicit
parameters.  The dispatcher's side effects are recorded as a trace of
actions.
-/

namespace Sqlmq

/-- The single-quote character, written via its code point. -/
def squote : Char := Char.ofNat 39

/-- The NUL character. -/
def nul : Char := Char.ofNat 0

/-- Status constants from std_table.go: the wait status is the empty string. -/
def statusWait : String := ""

def statusDone : String := "done"

def statusGivenUp : String := "givenUp"

/-- `time.Minute` as an integer number of seconds. -/
def timeMinute : Int := 60

/-- Go `strings.Replace(s, c, r, -1)` for a single-character pattern `c`:
replace every occurrence of `c` by the character list `r`. -/
def replaceChar (c : Char) (r : List Char) : List Char → List Char
  | [] => []
  | x :: xs => if x = c then r ++ replaceChar c r xs else x :: replaceChar c r xs

/-- `quote` from std_table.go: double every single quote, then remove every
NUL byte, then wrap the result in single quotes. -/
def quote (s : String) : String :=
  String.mk (squote :: replaceChar nul [] (replaceChar squote [squote, squote] s.data) ++ [squote])

/-- The spec's description of the escaping, as one pass: every single quote
is doubled and every NUL byte is removed.  Compared against `quote`. -/
def escapeSpec : List Char → List Char
  | [] => []
  | x :: xs =>
    if x = nul then escapeSpec xs
    else if x = squote then squote :: squote :: escapeSpec xs
    else x :: escapeSpec xs

end Sqlmq

namespace Sqlmq

/-- A JSON-marshallable Go value, abstracted: values `json.Marshal` encodes
deterministically, plus `unsupported` for values it rejects (func, chan,
NaN, ...). -/
inductive Jv where
  | null : Jv
  | boolean : Bool → Jv
  | num : Int → Jv
  | str : String → Jv
  | unsupported : Jv
deriving Repr, DecidableEq

/-- `json.Marshal` on the abstracted values: `none` models a serialization
error. -/
def encodeJv : Jv → Option String
  | Jv.null => some "null"
  | Jv.boolean true => some "true"
  | Jv.boolean false => some "false"
  | Jv.num n => some (toString n)
  | Jv.str s => some ("\"" ++ s ++ "\"")
  | Jv.unsupported => none

/-- The dynamic type of `StdMessage.Data`: either a byte slice (Go
`[]byte`, the type assertion in ProduceMessage succeeds) or any other
value, handed to `json.Marshal`. -/
inductive GoData where
  | bytes : String → GoData
  | val : Jv → GoData
deriving Repr, DecidableEq

/-- The serialization step of ProduceMessage (std_table.go):
`jsonData, ok := m.Data.([]byte)`; when `ok` the bytes are used verbatim,
otherwise `json.Marshal(m.Data)` runs and its error aborts the call. -/
def serializeData : GoData → Option String
  | GoData.bytes b => some b
  | GoData.val v => encodeJv v

/-- StdMessage from std_table.go.  Timestamps are integers; a zero value
models Go's `time.Time.IsZero()`. -/
structure StdMessage where
  id : Int
  queue : String
  data : GoData
  status : String
  createdAt : Int
  tryCount : Nat
  retryAt : Int
deriving Repr, DecidableEq

end Sqlmq

namespace Sqlmq

/-- The INSERT statement text of ProduceMessage, with user strings passed
through `quote` exactly as in the source; timestamp formatting is
abstracted to decimal rendering. -/
def insertSql (name : String) (m : StdMessage) (jsonData : String) : String :=
  "INSERT INTO " ++ name ++ " (queue, data, status, created_at, try_count, retry_at) VALUES (" ++
    quote m.queue ++ ", " ++ quote jsonData ++ ", " ++ quote m.status ++ ", " ++
    String.mk [squote] ++ toString m.createdAt ++ String.mk [squote] ++ ", " ++
    toString m.tryCount ++ ", " ++
    String.mk [squote] ++ toString m.retryAt ++ String.mk [squote] ++ ")"

/-- ProduceMessage from std_table.go.  Go mutates the caller's
`*StdMessage` in place; the model returns the caller-visible message state
after the call, paired with the INSERT statement executed (`none` when the
call returns early with a serialization error).  Serialization happens
first; only on its success are the zero timestamps filled (created_at from
now, then retry_at from the possibly just-filled created_at) and the row
inserted. -/
def produceMessage (name : String) (now : Int) (m : StdMessage) :
    StdMessage × Option String :=
  match serializeData m.data with
  | none => (m, none)
  | some jsonData =>
    let m1 := if m.createdAt = 0 then { m with createdAt := now } else m
    let m2 := if m1.retryAt = 0 then { m1 with retryAt := m1.createdAt } else m1
    (m2, some (insertSql name m2 jsonData))

/-- The row transformation of MarkRetry's UPDATE (std_table.go):
`SET try_count = try_count + 1, retry_at = now + retryAfter`.  No other
column appears in the SET list. -/
def markRetryRow (now retryAfter : Int) (r : StdMessage) : StdMessage :=
  { r with tryCount := r.tryCount + 1, retryAt := now + retryAfter }

/-- MarkRetry's UPDATE applied to a table: rows matching `WHERE id = mid`
are transformed, all others kept as they are. -/
def markRetryUpdate (now retryAfter mid : Int) (rows : List StdMessage) : List StdMessage :=
  rows.map (fun r => if r.id = mid then markRetryRow now retryAfter r else r)

/-- The WHERE clause of the claim query (getEarliestMessageSql):
`queue IN (queues) AND status = ''`, with SKIP LOCKED modelled by a set of
row ids currently locked by other transactions. -/
def eligible (qs : List String) (locked : List Int) (m : StdMessage) : Bool :=
  qs.contains m.queue && m.status == statusWait && !(locked.contains m.id)

/-- `ORDER BY retry_at LIMIT 1 FOR UPDATE SKIP LOCKED` over the table rows
in storage (primary-key) order: the first row, in storage order, among the
eligible rows of least retry_at.  A strictly earlier retry_at displaces the
current candidate; an equal retry_at keeps the earlier row. -/
def earliestMessage (qs : List String) (locked : List Int) :
    List StdMessage → Option StdMessage
  | [] => none
  | m :: rest =>
    match earliestMessage qs locked rest with
    | none => if eligible qs locked m then some m else none
    | some b =>
      if eligible qs locked m then
        (if m.retryAt ≤ b.retryAt then some m else some b)
      else some b

end Sqlmq

namespace Sqlmq

/-- Whether a mark statement runs on the claim transaction or on an
independent connection (`DBOrTx` in the source). -/
inductive DBCtx where
  | tx : DBCtx
  | db : DBCtx
deriving Repr, DecidableEq

/-- One observable side effect of the dispatcher. -/
inductive Action where
  | markSuccess : Action
  | markRetry : DBCtx → Int → Action
  | markGivenUp : DBCtx → Action
  | triggerConsume : Action
  | sleepMs : Nat → Action
  | commit : Action
  | rollback : Action
deriving Repr, DecidableEq

/-- The handler's return tuple `(retryAfter, canCommit, err)`. -/
structure HandlerResult where
  retryAfter : Int
  canCommit : Bool
  err : Option String
deriving Repr, DecidableEq

/-- Outcomes of the database calls the dispatcher makes, passed in as an
environment: the error (if any) of MarkSuccess, of the mark inside
markFail, and of Commit. -/
structure HandleEnv where
  markSuccessErr : Option String
  markFailErr : Option String
  commitErr : Option String
deriving Repr, DecidableEq

/-- `markFail` from the consume file: `retryAfter >= 0` runs MarkRetry and,
only when it succeeded, TriggerConsume; `retryAfter < 0` runs MarkGivenUp
(its error is only logged). -/
def markFail (c : DBCtx) (retryAfter : Int) (markErr : Option String) : List Action :=
  if 0 ≤ retryAfter then
    Action.markRetry c retryAfter :: (if markErr = none then [Action.triggerConsume] else [])
  else
    [Action.markGivenUp c]

/-- The body of `handle` (before its deferred commit/rollback): given the
result of the handler lookup (`handlerErr`) and the handler's return tuple,
it yields the actions taken, the error value at function return, and the
`canCommit` flag at function return.  With a handler and `err == nil` it
runs MarkSuccess (whose error becomes the return error, `canCommit` keeps
the handler's value); with `err != nil` it runs markFail on the claim
transaction when `canCommit`, else asynchronously on an independent
connection followed by the 100 ms pause; without a handler it sets
`canCommit = true` and runs markFail on the transaction with one minute. -/
def handleBody (env : HandleEnv) (handlerErr : Option String) (res : HandlerResult) :
    List Action × Option String × Bool :=
  match handlerErr with
  | none =>
    match res.err with
    | none => ([Action.markSuccess], env.markSuccessErr, res.canCommit)
    | some e =>
      if res.canCommit then
        (markFail DBCtx.tx res.retryAfter env.markFailErr, some e, true)
      else
        (markFail DBCtx.db res.retryAfter env.markFailErr ++ [Action.sleepMs 100], some e, false)
  | some e => (markFail DBCtx.tx timeMinute env.markFailErr, some e, true)

/-- `handle` from the consume file: the body above followed by the deferred
block — `err == nil` commits and returns the commit error; otherwise it
commits when `canCommit` (commit error only logged) and rolls back when
not, the body's error being returned either way. -/
def handle (env : HandleEnv) (handlerErr : Option String) (res : HandlerResult) :
    List Action × Option String :=
  match handleBody env handlerErr res with
  | (acts, none, _) => (acts ++ [Action.commit], env.commitErr)
  | (acts, some e, true) => (acts ++ [Action.commit], some e)
  | (acts, some e, false) => (acts ++ [Action.rollback], some e)

/-- Modelled from the spec: `handlerOf` lives in sqlmq.go, which is not
among the given source files.  Per the spec's handler registry, lookup by
queue name yields either the registered handler or an "unknown queue"
error; the registry is modelled as the list of queue names that have a
handler. -/
def unknownQueueError : String := "unknown queue"

/-- Modelled from the spec: handler lookup by queue name; the registry is
the list of queue names that have a handler. -/
def handlerOf (registry : List String) (q : String) : Option String :=
  if registry.contains q then none else some unknownQueueError

/-- `consumeOne` from the consume file.  Inputs: the dispatcher
environment, the handler registry, the handler's would-be result, the
idle wait, the current time, the outcome of BeginTx, the error of
EarliestMessage and the row it returned.  Output: the wait returned to the
caller, the error returned to the caller and, when a message is
dispatched, the trace of the asynchronous `handle` goroutine (whose own
error goes only to the logger).  When no row or a future row is found, or
the query failed, the transaction is rolled back and `(wait, queryErr)` is
returned with no dispatch. -/
def consumeOne (env : HandleEnv) (registry : List String) (res : HandlerResult)
    (idleWait now : Int) (beginErr queryErr : Option String) (msg : Option StdMessage) :
    Int × Option String × Option (List Action × Option String) :=
  match beginErr with
  | some e => (0, some e, none)
  | none =>
    match msg with
    | some m =>
      let wait := m.retryAt - now
      if 0 < wait ∨ queryErr ≠ none then (wait, queryErr, none)
      else (wait, none, some (handle env (handlerOf registry m.queue) res))
    | none => (idleWait, queryErr, none)

/-- The inner polling loop of `consume` from the consume file, over the
sequence of `consumeOne` outcomes it draws: an error ends the loop with
`errorWait`; a positive wait ends it with that wait clamped to `idleWait`;
a non-positive wait polls again.  `none` means the tight loop is still
polling when the outcomes run out. -/
def consumeGo (idleWait errorWait : Int) : List (Int × Option String) → Option Int
  | [] => none
  | (w, e) :: rest =>
    match e with
    | some _ => some errorWait
    | none =>
      if 0 < w then some (if idleWait < w then idleWait else w)
      else consumeGo idleWait errorWait rest

/-- `consume` from the consume file: with no registered queues it returns
`idleWait` at once, otherwise it runs the tight polling loop.  Its return
value is always a sleep duration handed back to the infinite `Consume`
loop, never a termination. -/
def consume (noQueues : Bool) (idleWait errorWait : Int)
    (attempts : List (Int × Option String)) : Option Int :=
  if noQueues then some idleWait else consumeGo idleWait errorWait attempts

end Sqlmq

namespace Sqlmq

/-- The two replacement passes of `quote` compose to the one-pass spec. -/
theorem replaceChar_eq_escapeSpec (l : List Char) :
    replaceChar nul [] (replaceChar squote [squote, squote] l) = escapeSpec l := by
  induction l with
  | nil => rfl
  | cons x xs ih =>
    by_cases hq : x = squote
    · subst hq
      have hne : ¬(squote = nul) := by decide
      simp [replaceChar, escapeSpec, hne, ih]
    · by_cases hn : x = nul
      · subst hn
        simp [replaceChar, escapeSpec, hq, ih]
      · simp [replaceChar, escapeSpec, hq, hn, ih]

/-- The escaped text contains no NUL. -/
theorem escapeSpec_no_nul (l : List Char) : nul ∉ escapeSpec l := by
  induction l with
  | nil => simp [escapeSpec]
  | cons x xs ih =>
    by_cases hn : x = nul
    · simpa [escapeSpec, hn] using ih
    · by_cases hq : x = squote
      · have h1 : ¬(nul = squote) := by decide
        have h2 : ¬(squote = nul) := by decide
        simp [escapeSpec, hn, hq, ih, h1, h2]
      · simp [escapeSpec, hn, hq, ih]
        exact fun h => hn h.symm

/-- Every single quote of the input appears doubled in the escaped text. -/
theorem escapeSpec_count_squote (l : List Char) :
    (escapeSpec l).count squote = 2 * l.count squote := by
  induction l with
  | nil => simp [escapeSpec]
  | cons x xs ih =>
    by_cases hn : x = nul
    · have : ¬(nul = squote) := by decide
      simp [escapeSpec, hn, ih, List.count_cons, this]
    · by_cases hq : x = squote
      · subst hq
        simp [escapeSpec, hn, ih, List.count_cons]
        ring
      · simp [escapeSpec, hn, hq, ih, List.count_cons]

/-- C8: for every input string, `quote` escapes the string by doubling
every single-quote character and removing every NUL byte, and wraps the
result in single quotes. -/
theorem quote_escapes (s : String) :
    (quote s).data = squote :: escapeSpec s.data ++ [squote] ∧
    nul ∉ escapeSpec s.data ∧
    (escapeSpec s.data).count squote = 2 * s.data.count squote :=
  ⟨by simp [quote, replaceChar_eq_escapeSpec],
   escapeSpec_no_nul s.data,
   escapeSpec_count_squote s.data⟩

/-- C1: for every handler invocation that returns `err == nil`, the
dispatcher treats the message as success: it runs MarkSuccess on the claim
transaction and commits (returning the commit error), whatever `retryAfter`
and `canCommit` the handler returned — in particular it commits even when
`canCommit` is false.  The hypothesis is that MarkSuccess itself did not
fail. -/
theorem handle_success_commits (env : HandleEnv) (ra : Int) (cc : Bool)
    (h : env.markSuccessErr = none) :
    handle env none ⟨ra, cc, none⟩ = ([Action.markSuccess, Action.commit], env.commitErr) := by
  simp [handle, handleBody, h]

/-- Witness for C1 at a concrete input with `canCommit = false` and a
positive `retryAfter`: the dispatcher still marks success and commits. -/
theorem handle_success_commits_witness :
    handle ⟨none, none, none⟩ none ⟨5, false, none⟩ =
      ([Action.markSuccess, Action.commit], none) :=
  handle_success_commits ⟨none, none, none⟩ 5 false rfl

/-- C2: markFail interprets the sign of `retryAfter`: when `0 ≤ retryAfter`
and MarkRetry succeeds it runs MarkRetry with that delay followed by
TriggerConsume; when `retryAfter < 0` it runs MarkGivenUp only, and no
TriggerConsume signal appears, whatever the mark's outcome. -/
theorem markFail_policy (c : DBCtx) (ra : Int) (me : Option String) :
    (0 ≤ ra → markFail c ra none = [Action.markRetry c ra, Action.triggerConsume]) ∧
    (ra < 0 → markFail c ra me = [Action.markGivenUp c] ∧
      Action.triggerConsume ∉ markFail c ra me) := by
  constructor
  · intro h
    simp [markFail, h]
  · intro h
    have h2 : ¬(0 ≤ ra) := by omega
    simp [markFail, h2]

/-- Witness for C2: both branches at concrete delays. -/
theorem markFail_policy_witness :
    markFail DBCtx.tx 5 none = [Action.markRetry DBCtx.tx 5, Action.triggerConsume] ∧
    markFail DBCtx.db (-1) none = [Action.markGivenUp DBCtx.db] :=
  ⟨(markFail_policy DBCtx.tx 5 none).1 (by decide),
   ((markFail_policy DBCtx.db (-1) none).2 (by decide)).1⟩

/-- C4: MarkRetry's UPDATE, row by row: the row whose id matches gets
`retry_at = now + retryAfter` and `try_count` incremented by exactly one,
with status, id, queue, created_at and data unchanged; every other row is
left exactly as it was. -/
theorem markRetryUpdate_frame (now d mid : Int) (rows : List StdMessage) :
    List.Forall₂ (fun r rr =>
      (r.id = mid → rr.retryAt = now + d ∧ rr.tryCount = r.tryCount + 1 ∧
        rr.status = r.status ∧ rr.id = r.id ∧ rr.queue = r.queue ∧
        rr.createdAt = r.createdAt ∧ rr.data = r.data) ∧
      (r.id ≠ mid → rr = r)) rows (markRetryUpdate now d mid rows) := by
  induction rows with
  | nil => simp [markRetryUpdate]
  | cons r rest ih =>
    refine List.Forall₂.cons ?_ ih
    constructor
    · intro h
      simp [h, markRetryRow]
    · intro h
      simp [h]

/-- C5: in ProduceMessage, once serialization succeeded, a zero
`created_at` is set to now, and a zero `retry_at` is set to the (possibly
just-filled) `created_at`; non-zero timestamps are kept; and the row is
inserted with exactly the filled message's values. -/
theorem produceMessage_defaults (name : String) (now : Int) (m : StdMessage) (j : String)
    (h : serializeData m.data = some j) :
    (produceMessage name now m).1.createdAt =
      (if m.createdAt = 0 then now else m.createdAt) ∧
    (produceMessage name now m).1.retryAt =
      (if m.retryAt = 0 then (if m.createdAt = 0 then now else m.createdAt) else m.retryAt) ∧
    (produceMessage name now m).2 =
      some (insertSql name (produceMessage name now m).1 j) := by
  by_cases hc : m.createdAt = 0
  · by_cases hr : m.retryAt = 0
    · simp [produceMessage, h, hc, hr]
    · simp [produceMessage, h, hc, hr]
  · by_cases hr : m.retryAt = 0
    · simp [produceMessage, h, hc, hr]
    · simp [produceMessage, h, hc, hr]

/-- Witness for C5: a message with zero timestamps and a byte payload gets
`created_at = retry_at = now` and its insert uses the filled values. -/
theorem produceMessage_defaults_witness :
    (produceMessage "sqlmq" 7 ⟨1, "q", GoData.bytes "x", "", 0, 0, 0⟩).1.createdAt =
      (if (0 : Int) = 0 then 7 else 0) ∧
    (produceMessage "sqlmq" 7 ⟨1, "q", GoData.bytes "x", "", 0, 0, 0⟩).1.retryAt =
      (if (0 : Int) = 0 then (if (0 : Int) = 0 then 7 else 0) else 0) ∧
    (produceMessage "sqlmq" 7 ⟨1, "q", GoData.bytes "x", "", 0, 0, 0⟩).2 =
      some (insertSql "sqlmq" (produceMessage "sqlmq" 7 ⟨1, "q", GoData.bytes "x", "", 0, 0, 0⟩).1 "x") :=
  produceMessage_defaults "sqlmq" 7 ⟨1, "q", GoData.bytes "x", "", 0, 0, 0⟩ "x" rfl

/-- C9: ProduceMessage's default filling is visible on the caller's message
value itself (Go mutates the `*StdMessage` in place, modelled as the
returned message state): with zero timestamps and a successful
serialization, the caller's message afterwards carries `created_at =
retry_at = now` — it is no longer the value passed in — while its other
fields are untouched. -/
theorem produceMessage_mutates (name : String) (now : Int) (m : StdMessage) (j : String)
    (h : serializeData m.data = some j) (hc : m.createdAt = 0) (hr : m.retryAt = 0)
    (hnow : now ≠ 0) :
    (produceMessage name now m).1.createdAt = now ∧
    (produceMessage name now m).1.retryAt = now ∧
    (produceMessage name now m).1 ≠ m ∧
    (produceMessage name now m).1.id = m.id ∧
    (produceMessage name now m).1.queue = m.queue ∧
    (produceMessage name now m).1.data = m.data ∧
    (produceMessage name now m).1.status = m.status ∧
    (produceMessage name now m).1.tryCount = m.tryCount := by
  have hmain := produceMessage_defaults name now m j h
  refine ⟨?_, ?_, ?_, ?_, ?_, ?_, ?_, ?_⟩
  · rw [hmain.1]
    simp [hc]
  · rw [hmain.2.1]
    simp [hc, hr]
  · intro heq
    have hfield := congrArg StdMessage.createdAt heq
    rw [hmain.1] at hfield
    simp [hc] at hfield
    exact hnow hfield
  all_goals simp [produceMessage, h, hc, hr]

/-- Witness for C9 at a concrete message with zero timestamps. -/
theorem produceMessage_mutates_witness :
    (produceMessage "sqlmq" 7 ⟨1, "q", GoData.bytes "x", "", 0, 0, 0⟩).1.createdAt = 7 ∧
    (produceMessage "sqlmq" 7 ⟨1, "q", GoData.bytes "x", "", 0, 0, 0⟩).1.retryAt = 7 ∧
    (produceMessage "sqlmq" 7 ⟨1, "q", GoData.bytes "x", "", 0, 0, 0⟩).1 ≠
      ⟨1, "q", GoData.bytes "x", "", 0, 0, 0⟩ ∧
    (produceMessage "sqlmq" 7 ⟨1, "q", GoData.bytes "x", "", 0, 0, 0⟩).1.id = 1 ∧
    (produceMessage "sqlmq" 7 ⟨1, "q", GoData.bytes "x", "", 0, 0, 0⟩).1.queue = "q" ∧
    (produceMessage "sqlmq" 7 ⟨1, "q", GoData.bytes "x", "", 0, 0, 0⟩).1.data =
      GoData.bytes "x" ∧
    (produceMessage "sqlmq" 7 ⟨1, "q", GoData.bytes "x", "", 0, 0, 0⟩).1.status = "" ∧
    (produceMessage "sqlmq" 7 ⟨1, "q", GoData.bytes "x", "", 0, 0, 0⟩).1.tryCount = 0 :=
  produceMessage_mutates "sqlmq" 7 ⟨1, "q", GoData.bytes "x", "", 0, 0, 0⟩ "x" rfl rfl rfl
    (by decide)

/-- C10: a byte-slice payload is embedded verbatim, bypassing the JSON
encoder, so it can never produce a serialization error; and when
serialization of a non-byte payload fails, ProduceMessage returns before
filling defaults or inserting: the result is exactly the unchanged message
and no INSERT statement. -/
theorem produceMessage_serialization (name : String) (now : Int) (m : StdMessage) (b : String) :
    (m.data = GoData.bytes b →
      serializeData m.data = some b ∧
      (produceMessage name now m).2 =
        some (insertSql name (produceMessage name now m).1 b)) ∧
    (serializeData m.data = none → produceMessage name now m = (m, none)) := by
  constructor
  · intro h
    have hser : serializeData m.data = some b := by simp [h, serializeData]
    exact ⟨hser, (produceMessage_defaults name now m b hser).2.2⟩
  · intro h
    simp [produceMessage, h]

/-- A claim query that returns no row found no eligible row. -/
theorem earliestMessage_none (qs : List String) (locked : List Int) :
    ∀ l : List StdMessage, earliestMessage qs locked l = none →
      ∀ m ∈ l, eligible qs locked m = false := by
  intro l
  induction l with
  | nil => simp
  | cons m rest ih =>
    intro h x hx
    cases hrec : earliestMessage qs locked rest with
    | none =>
      by_cases he : eligible qs locked m = true
      · simp [earliestMessage, hrec, he] at h
      · rcases List.mem_cons.mp hx with hxm | hxr
        · subst hxm
          simpa using he
        · exact ih hrec x hxr
    | some b =>
      exfalso
      simp only [earliestMessage, hrec] at h
      split at h
      · split at h <;> simp at h
      · simp at h

/-- C6 helper: with no handler for the message's queue and a successful
MarkRetry, `handle` reschedules one minute out on the claim transaction,
wakes the consumer and commits, returning the unknown-queue error (which
the caller only logs). -/
theorem handle_unknownQueue (env : HandleEnv) (registry : List String) (q : String)
    (res : HandlerResult) (hreg : registry.contains q = false)
    (hmf : env.markFailErr = none) :
    handle env (handlerOf registry q) res =
      ([Action.markRetry DBCtx.tx timeMinute, Action.triggerConsume, Action.commit],
        some unknownQueueError) := by
  have hlook : handlerOf registry q = some unknownQueueError := by
    unfold handlerOf
    rw [hreg]
    simp
  have hpos : (0 : Int) ≤ timeMinute := by decide
  simp [handle, handleBody, hlook, markFail, hpos, hmf]

/-- Witness for the C6 helper theorem. -/
theorem handle_unknownQueue_witness :
    handle ⟨none, none, none⟩ (handlerOf [] "ghost") ⟨0, true, none⟩ =
      ([Action.markRetry DBCtx.tx timeMinute, Action.triggerConsume, Action.commit],
        some unknownQueueError) :=
  handle_unknownQueue ⟨none, none, none⟩ [] "ghost" ⟨0, true, none⟩ rfl rfl

/-- C6: a claimed, due message whose queue has no registered handler is
rescheduled one minute out by MarkRetry on the claim transaction and the
transaction committed; the unknown-queue error stays inside the
asynchronous dispatch trace (where it is logged) and the consume attempt
itself returns no error, so the state transition is committed and no
dispatch failure is surfaced. -/
theorem consumeOne_unknownQueue (env : HandleEnv) (registry : List String)
    (res : HandlerResult) (idleWait now : Int) (m : StdMessage)
    (hreg : registry.contains m.queue = false)
    (hmf : env.markFailErr = none)
    (hready : m.retryAt ≤ now) :
    consumeOne env registry res idleWait now none none (some m) =
      (m.retryAt - now, none,
        some ([Action.markRetry DBCtx.tx timeMinute, Action.triggerConsume, Action.commit],
          some unknownQueueError)) := by
  have hwait : ¬(0 < m.retryAt - now) := by omega
  simp [consumeOne, hwait, handle_unknownQueue env registry m.queue res hreg hmf]

/-- Witness for C6: a due message in queue "ghost" with an empty registry. -/
theorem consumeOne_unknownQueue_witness :
    consumeOne ⟨none, none, none⟩ [] ⟨0, true, none⟩ 60 10 none none
        (some ⟨1, "ghost", GoData.bytes "x", "", 5, 0, 10⟩) =
      ((10 : Int) - 10, none,
        some ([Action.markRetry DBCtx.tx timeMinute, Action.triggerConsume, Action.commit],
          some unknownQueueError)) :=
  consumeOne_unknownQueue ⟨none, none, none⟩ [] ⟨0, true, none⟩ 60 10
    ⟨1, "ghost", GoData.bytes "x", "", 5, 0, 10⟩ rfl rfl (by decide)

/-- C7: an error from a consume attempt never ends the polling: after any
run of quiet, immediately-retried attempts, the first erroring attempt
makes `consume` hand the infinite Consume loop a sleep of `errorWait` —
a sleep, never a termination; the error decides only that duration. -/
theorem consume_error_sleeps (idleWait errorWait w : Int) (e : String)
    (pre rest : List (Int × Option String))
    (hpre : ∀ x ∈ pre, x.2 = none ∧ x.1 ≤ 0) :
    consume false idleWait errorWait (pre ++ (w, some e) :: rest) = some errorWait := by
  revert hpre
  induction pre with
  | nil =>
    intro hpre
    simp [consume, consumeGo]
  | cons x xs ih =>
    intro hpre
    obtain ⟨w2, e2⟩ := x
    have hx := hpre (w2, e2) (List.mem_cons_self _ _)
    obtain ⟨he2, hw2⟩ := hx
    simp only at he2 hw2
    subst he2
    have hw2n : ¬((0 : Int) < w2) := by omega
    have ihx := ih (fun y hy => hpre y (List.mem_cons_of_mem _ hy))
    simpa [consume, consumeGo, hw2n] using ihx

/-- Witness for C7: one erroring attempt, no quiet prefix. -/
theorem consume_error_sleeps_witness :
    consume false 1 2 ([] ++ ((0 : Int), some "boom") :: []) = some 2 :=
  consume_error_sleeps 1 2 0 "boom" [] [] (by simp)

/-- C3: under the storage-order model of the claim query (rows in
primary-key order, ties kept on the earlier row), the row returned is an
eligible row of the table, no eligible row has a smaller `retry_at`, and
among eligible rows of equal `retry_at` it is the one of least id — i.e.
the choice is exactly the head of `ORDER BY retry_at, id`. -/
theorem earliestMessage_spec (qs : List String) (locked : List Int)
    (rows : List StdMessage) (r : StdMessage)
    (hsorted : List.Pairwise (fun a b => a.id < b.id) rows)
    (h : earliestMessage qs locked rows = some r) :
    r ∈ rows ∧ eligible qs locked r = true ∧
    ∀ x ∈ rows, eligible qs locked x = true →
      r.retryAt < x.retryAt ∨ (r.retryAt = x.retryAt ∧ r.id ≤ x.id) := by
  induction rows generalizing r with
  | nil => simp [earliestMessage] at h
  | cons m rest ih =>
    rw [List.pairwise_cons] at hsorted
    obtain ⟨hm, hrest⟩ := hsorted
    cases hrec : earliestMessage qs locked rest with
    | none =>
      by_cases he : eligible qs locked m = true
      · simp [earliestMessage, hrec, he] at h
        subst h
        refine ⟨List.mem_cons_self _ _, he, ?_⟩
        intro x hx hxe
        rcases List.mem_cons.mp hx with hxm | hxr
        · subst hxm
          exact Or.inr ⟨rfl, le_refl _⟩
        · exact absurd hxe (by simp [earliestMessage_none qs locked rest hrec x hxr])
      · simp [earliestMessage, hrec, he] at h
    | some b =>
      obtain ⟨hbmem, hbel, hbmin⟩ := ih b hrest hrec
      by_cases he : eligible qs locked m = true
      · by_cases hle : m.retryAt ≤ b.retryAt
        · simp [earliestMessage, hrec, he, hle] at h
          subst h
          refine ⟨List.mem_cons_self _ _, he, ?_⟩
          intro x hx hxe
          rcases List.mem_cons.mp hx with hxm | hxr
          · subst hxm
            exact Or.inr ⟨rfl, le_refl _⟩
          · rcases hbmin x hxr hxe with hlt | ⟨heq, _⟩
            · exact Or.inl (lt_of_le_of_lt hle hlt)
            · rcases lt_or_eq_of_le (hle.trans heq.le) with h1 | h1
              · exact Or.inl h1
              · exact Or.inr ⟨h1, le_of_lt (hm x hxr)⟩
        · simp [earliestMessage, hrec, he, hle] at h
          subst h
          refine ⟨List.mem_cons_of_mem _ hbmem, hbel, ?_⟩
          intro x hx hxe
          rcases List.mem_cons.mp hx with hxm | hxr
          · subst hxm
            exact Or.inl (by omega)
          · exact hbmin x hxr hxe
      · simp [earliestMessage, hrec, he] at h
        subst h
        refine ⟨List.mem_cons_of_mem _ hbmem, hbel, ?_⟩
        intro x hx hxe
        rcases List.mem_cons.mp hx with hxm | hxr
        · subst hxm
          exact absurd hxe he
        · exact hbmin x hxr hxe

/-- A concrete table for the C3 witness: two eligible rows with equal
`retry_at` and ids 1 and 2, in storage order. -/
def wRowA : StdMessage := ⟨1, "q", GoData.bytes "a", "", 3, 0, 9⟩

def wRowB : StdMessage := ⟨2, "q", GoData.bytes "b", "", 4, 0, 9⟩

/-- Witness for C3: on the concrete table the claim query picks the row of
least id among the equal-`retry_at` eligible rows. -/
theorem earliestMessage_spec_witness :
    wRowA ∈ [wRowA, wRowB] ∧ eligible ["q"] [] wRowA = true ∧
    ∀ x ∈ [wRowA, wRowB], eligible ["q"] [] x = true →
      wRowA.retryAt < x.retryAt ∨ (wRowA.retryAt = x.retryAt ∧ wRowA.id ≤ x.id) :=
  earliestMessage_spec ["q"] [] [wRowA, wRowB] wRowA (by decide) (by decide)

end Sqlmq
